import Mathlib

/-!
Verification development for the equity-valuation core of the repository
(`backend/models.py`, class `ValuationModels`).

The Python code is shallowly embedded over exact rational arithmetic (`ℚ`):
pandas DataFrames become lists of rows of optional rationals ("missing" is
`none`), Python dictionaries with optional keys become structures of
`Option ℚ` fields, and `try`/`except` blocks around a model become a sum
type (`.ok`/`.err`) with the accessors the caller actually uses
(`res.get('shareValue', 0)` and the presence of an `'error'` key).

The session modelled is the one in which `stock_data` is supplied directly
(`self.stock` is `None`): the data-provider branches are out of scope per
the spec, and all claims concern either functions that take the table as an
argument (`check_data_frequency`, `find_financial_value`) or the arithmetic
that is shared by both branches.

String normalization (case folding, whitespace stripping, unit stripping)
is carried out on `List Char` so that every definition evaluates by kernel
reduction.
-/

/-! ## String helpers (substring test, case folding, stripping) -/

/-- Bool test: the character list `pat` is an initial segment of `s`. -/
def charsLeading : List Char → List Char → Bool
  | [], _ => true
  | _ :: _, [] => false
  | a :: as, b :: bs => a == b && charsLeading as bs

/-- Bool test: `pat` occurs contiguously inside `s`. -/
def charsContains (s pat : List Char) : Bool :=
  match s with
  | [] => pat.isEmpty
  | _ :: rest => charsLeading pat s || charsContains rest pat

/-- Python `s.lower()` as a character list. -/
def lowerStr (s : String) : List Char :=
  s.toList.map Char.toLower

/-- Python `s.strip()`: drop whitespace from both ends. -/
def trimChars (l : List Char) : List Char :=
  ((l.dropWhile Char.isWhitespace).reverse.dropWhile Char.isWhitespace).reverse

/-- Python `s.split('(')[0]`: everything before the first opening paren. -/
def takeBeforeParen (l : List Char) : List Char :=
  l.takeWhile (fun c => c != '(')

/-- Python `sub in s` on strings (case-sensitive). -/
def strContains (s pat : String) : Bool :=
  charsContains s.toList pat.toList

/-- Python `target_col.lower().strip()` (`models.py` line 378). -/
def normTarget (t : String) : List Char :=
  trimChars (lowerStr t)

/-- Python `str(data_col).split('(')[0].strip().lower()` (`models.py` line 382). -/
def stripUnitLower (c : String) : List Char :=
  (trimChars (takeBeforeParen c.toList)).map Char.toLower

/-- Python `str(data_col).lower().strip()` (`models.py` line 385, raw form). -/
def rawLowerStrip (c : String) : List Char :=
  trimChars (lowerStr c)

/-! ## DataFrame model and `check_data_frequency` -/

/-- A pandas DataFrame: named columns and rows of optional numeric cells
(`none` is NaN/missing).  Rows are lists aligned with `columns`. -/
structure DataFrame where
  columns : List String
  rows : List (List (Option ℚ))
deriving DecidableEq

/-- Requested / achieved statement frequency. -/
inductive Freq
  | year
  | quarter
deriving DecidableEq

/-- Cell of a row at column index `i` (`none` when absent or missing). -/
def cellAt (r : List (Option ℚ)) (i : ℕ) : Option ℚ :=
  (r.get? i).join

/-- Source `models.py` line 325: a column is time-bearing when its lower-cased name
contains one of the keywords year/quarter/date/time. -/
def isTimeCol (c : String) : Bool :=
  charsContains (lowerStr c) "year".toList || charsContains (lowerStr c) "quarter".toList ||
    charsContains (lowerStr c) "date".toList || charsContains (lowerStr c) "time".toList

/-- Source `models.py` line 326: `'lengthReport' in col or 'quarter' in col.lower()`. -/
def isQuarterCol (c : String) : Bool :=
  charsContains c.toList "lengthReport".toList || charsContains (lowerStr c) "quarter".toList

/-- Insertion of an element into a list sorted by the Bool relation `le`. -/
def insertLe (le : α → α → Bool) (x : α) : List α → List α
  | [] => [x]
  | y :: ys => if le x y then x :: y :: ys else y :: insertLe le x ys

/-- Sorting used to model `DataFrame.sort_values` (the claims only depend on
the row count, so insertion sort is an adequate model of pandas' unstable
quicksort). -/
def sortRows (le : α → α → Bool) : List α → List α
  | [] => []
  | x :: xs => insertLe le x (sortRows le xs)

/-- Descending comparison of two optional sort keys, missing values last
(pandas `na_position='last'`). -/
def descKeyLe : Option ℚ → Option ℚ → Bool
  | some x, some y => decide (y ≤ x)
  | some _, none => true
  | none, some _ => false
  | none, none => true

/-- Rows sorted descending by (`yearReport`, `lengthReport`), models
`data.sort_values(['yearReport', 'lengthReport'], ascending=[False, False])`. -/
def rowsSortedByYearLen (df : DataFrame) : List (List (Option ℚ)) :=
  match df.columns.indexOf? "yearReport", df.columns.indexOf? "lengthReport" with
  | some yi, some li =>
    sortRows (fun r1 r2 =>
      match cellAt r1 yi, cellAt r2 yi with
      | some y1, some y2 =>
        if y1 = y2 then descKeyLe (cellAt r1 li) (cellAt r2 li)
        else decide (y2 ≤ y1)
      | some _, none => true
      | none, some _ => false
      | none, none => true) df.rows
  | _, _ => df.rows

/-- Embeds `ValuationModels.check_data_frequency` (`models.py` lines 323-366).
Classifies temporal granularity, sorts descending, and windows to the latest
4 quarters / 1 year.  With no time-bearing column at all the table is
returned unchanged with the requested frequency assumed. -/
def check_data_frequency (df : DataFrame) (expected : Freq) : Freq × DataFrame :=
  let timeCols := df.columns.filter isTimeCol
  let quarterCols := df.columns.filter isQuarterCol
  if timeCols.isEmpty && quarterCols.isEmpty then (expected, df)
  else if df.columns.contains "yearReport" && df.columns.contains "lengthReport" then
    let sorted := rowsSortedByYearLen df
    if expected = Freq.quarter then (Freq.quarter, ⟨df.columns, sorted.take 4⟩)
    else
      match df.columns.indexOf? "lengthReport" with
      | some li =>
        let fullYear := sorted.filter (fun r => cellAt r li == some 4)
        let chosen := if fullYear.isEmpty then sorted.take 1 else fullYear.take 1
        (Freq.year, ⟨df.columns, chosen⟩)
      | none => (Freq.year, ⟨df.columns, sorted.take 1⟩)
  else
    match timeCols.head? with
    | some tc =>
      match df.columns.indexOf? tc with
      | some ti =>
        if df.rows.any (fun r => (cellAt r ti).isSome) then
          let sorted := sortRows (fun r1 r2 => descKeyLe (cellAt r1 ti) (cellAt r2 ti)) df.rows
          if expected = Freq.quarter then (Freq.quarter, ⟨df.columns, sorted.take 4⟩)
          else (Freq.year, ⟨df.columns, sorted.take 1⟩)
        else (expected, ⟨df.columns, df.rows.take 1⟩)
      | none => (expected, ⟨df.columns, df.rows.take 1⟩)
    | none => (expected, ⟨df.columns, df.rows.take 1⟩)

/-! ## `find_financial_value` (`models.py` lines 368-410) -/

/-- Python `'fixed' in target_col.lower() or 'capital' in target_col.lower()`:
the target denotes a cumulative capital-flow quantity. -/
def targetIsCap (t : String) : Bool :=
  charsContains (lowerStr t) "fixed".toList || charsContains (lowerStr t) "capital".toList

/-- Source `models.py` line 385: the target matches the column after unit-stripping
and case-folding, or matches the raw lower-cased column name exactly. -/
def colMatches (t c : String) : Bool :=
  normTarget t == stripUnitLower c || normTarget t == rawLowerStrip c

/-- The value a matching column contributes (`models.py` lines 386-393):
`none` when the column has no non-missing value; otherwise the window sum
when quarterly, else the first (most recent) non-missing value. -/
def matchedValue (df : DataFrame) (ci : ℕ) (isQ : Bool) : Option ℚ :=
  let valid := (df.rows.map (fun r => cellAt r ci)).filterMap id
  if valid.isEmpty then none
  else some (if isQ then valid.sum else valid.headD 0)

/-- Inner loop of `find_financial_value` over the (indexed) columns for one
target: capital-flow targets accumulate every match; any other target takes
the first match's value and breaks. Returns (total, found). -/
def scanCols (df : DataFrame) (isQ : Bool) (t : String) :
    List (ℕ × String) → ℚ → ℚ × Bool
  | [], total => (total, false)
  | ic :: rest, total =>
    if colMatches t ic.2 then
      match matchedValue df ic.1 isQ with
      | some cs =>
        if targetIsCap t then scanCols df isQ t rest (total + cs)
        else (cs, true)
      | none => scanCols df isQ t rest total
    else scanCols df isQ t rest total

/-- Outer loop of `find_financial_value` over the synonym list, with the
source's `if found and 'fixed' not in target_col.lower(): break`. -/
def scanTargets (df : DataFrame) (isQ : Bool) : List String → ℚ → ℚ
  | [], total => total
  | t :: rest, total =>
    let r := scanCols df isQ t df.columns.enum total
    if r.2 && !(charsContains (lowerStr t) "fixed".toList) then r.1
    else scanTargets df isQ rest r.1

/-- Embeds `ValuationModels.find_financial_value`: resolve an ordered synonym list
against the table's columns; empty table yields 0 (`data.empty` is true when
either axis has length 0). -/
def find_financial_value (df : DataFrame) (names : List String) (isQ : Bool) : ℚ :=
  if df.rows.isEmpty || df.columns.isEmpty then 0
  else scanTargets df isQ names 0

/-- Contributions of the matching columns of an indexed column list for one
target, in column order. -/
def contribsOn (df : DataFrame) (isQ : Bool) (t : String) (l : List (ℕ × String)) : List ℚ :=
  l.filterMap (fun ic => if colMatches t ic.2 then matchedValue df ic.1 isQ else none)

/-- Contributions of all matching columns of the table for one target. -/
def colContribs (df : DataFrame) (isQ : Bool) (t : String) : List ℚ :=
  contribsOn df isQ t df.columns.enum

/-- Specification-level aggregate for capital-flow synonym lists: the sum of
every matching column's contribution across every synonym. -/
def capTotal (df : DataFrame) (isQ : Bool) (names : List String) : ℚ :=
  (names.map (fun t => (colContribs df isQ t).sum)).sum

/-- Specification-level value for ordinary synonym lists: the first synonym
with a matching column yields its first matching column's contribution. -/
def firstHitValue (df : DataFrame) (isQ : Bool) : List String → Option ℚ
  | [] => none
  | t :: rest =>
    match (colContribs df isQ t).head? with
    | some v => some v
    | none => firstHitValue df isQ rest

/-! ## Stock data, assumptions, and shared valuation arithmetic -/

/-- The `stock_data` dictionary supplied to `ValuationModels` when no live
symbol is attached: every recognized key is optional. -/
structure StockData where
  net_income_ttm : Option ℚ := none
  depreciation : Option ℚ := none
  capex : Option ℚ := none
  net_borrowing : Option ℚ := none
  working_capital_change : Option ℚ := none
  interest_expense : Option ℚ := none
  total_debt : Option ℚ := none
  cash : Option ℚ := none
  eps : Option ℚ := none
  bvps : Option ℚ := none
  book_value_per_share : Option ℚ := none
  total_equity : Option ℚ := none
  shares_outstanding : Option ℚ := none
deriving DecidableEq

/-- The `assumptions` dictionary: every recognized key is optional and the
models apply their own defaults on read. -/
structure Assumptions where
  short_term_growth : Option ℚ := none
  revenue_growth : Option ℚ := none
  terminal_growth : Option ℚ := none
  cost_of_equity : Option ℚ := none
  wacc : Option ℚ := none
  tax_rate : Option ℚ := none
  forecast_years : Option ℤ := none
  model_weights : Option (List (String × ℚ)) := none
deriving DecidableEq

/-- Embeds `ValuationModels.get_shares_outstanding` (`models.py` lines 412-434) in
the no-symbol session: `self.stock_data.get('shares_outstanding',
1_000_000_000)` — the stored value is returned as-is when present, and the
fixed default only when the key is absent. -/
def get_shares_outstanding (sd : StockData) : ℚ :=
  sd.shares_outstanding.getD 1000000000

/-- Python `[flow * ((1 + g) ** year) for year in range(1, forecast_years + 1)]`
(`models.py` lines 509 and 693); empty when the horizon is non-positive. -/
def futureFlows (base g : ℚ) (n : ℤ) : List ℚ :=
  (List.range n.toNat).map (fun y => base * (1 + g) ^ (y + 1))

/-- The shared terminal-value computation (`models.py` lines 513-518 and
695-699): Gordon growth on the last projected flow, with the discount rate
replaced by `max(r, g + 0.02)` when `r ≤ g`. -/
def terminalValueCalc (last r g : ℚ) : ℚ :=
  if r ≤ g then last * (1 + g) / (max r (g + 2/100) - g)
  else last * (1 + g) / (r - g)

/-- Python `[flow / ((1 + r) ** year) for year, flow in enumerate(flows, 1)]`
(`models.py` lines 520 and 701). -/
def presentValues (flows : List ℚ) (r : ℚ) : List ℚ :=
  flows.enum.map (fun yf => yf.2 / (1 + r) ^ (yf.1 + 1))

/-! ## FCFE model (`models.py` lines 439-595) -/

/-- The detailed result dictionary built by `calculate_fcfe` on success
(`models.py` lines 532-560); the `assumptions` echo keys carry an `asm`
namespace prefixed to their Python names. -/
structure FcfeDetail where
  shareValue : ℚ
  baseFCFE : ℚ
  projectedCashFlows : List ℚ
  presentValues : List ℚ
  terminalValue : ℚ
  pvTerminal : ℚ
  totalEquityValue : ℚ
  sharesOutstanding : ℚ
  asmCostOfEquity : ℚ
  asmShortTermGrowth : ℚ
  asmTerminalGrowth : ℚ
  asmForecastYears : ℤ
deriving DecidableEq

/-- Outcome of `calculate_fcfe`: the detailed dictionary, or the
`{'shareValue': 0, 'error': str(e)}` dictionary built by the `except`
branch (`models.py` line 595). -/
inductive FcfeResult
  | ok (d : FcfeDetail)
  | err
deriving DecidableEq

/-- Python `res.get('shareValue', 0)`: present in both outcome shapes. -/
def FcfeResult.shareValue : FcfeResult → ℚ
  | .ok d => d.shareValue
  | .err => 0

/-- Python `'error' in res`: only the except-branch dictionary carries the key. -/
def FcfeResult.hasError : FcfeResult → Bool
  | .ok _ => false
  | .err => true

/-- Python `res.get('projectedCashFlows', [])`. -/
def FcfeResult.projected : FcfeResult → List ℚ
  | .ok d => d.projectedCashFlows
  | .err => []

/-- Embeds `ValuationModels.calculate_fcfe` in the `stock_data` session
(`models.py` lines 439-595).  The base flow is
`net_income + depreciation + net_borrowing - working_capital_change - abs(capex)`;
the short-term growth key falls back to `revenue_growth` and then 0.05;
indexing the empty projection list and a zero discount denominator are the
two exceptions the `except` branch can catch here. -/
def calculate_fcfe (sd : StockData) (a : Assumptions) : FcfeResult :=
  let short_term_growth := a.short_term_growth.getD (a.revenue_growth.getD (5/100))
  let terminal_growth := a.terminal_growth.getD (2/100)
  let cost_of_equity := a.cost_of_equity.getD (12/100)
  let forecast_years := a.forecast_years.getD 5
  let shares_outstanding := get_shares_outstanding sd
  let net_income := sd.net_income_ttm.getD 0
  let depreciation := sd.depreciation.getD 0
  let capex := |sd.capex.getD 0|
  let net_borrowing := sd.net_borrowing.getD 0
  let working_capital_change := sd.working_capital_change.getD 0
  let fcfe := net_income + depreciation + net_borrowing - working_capital_change - capex
  let future_fcfes := futureFlows fcfe short_term_growth forecast_years
  match future_fcfes.getLast? with
  | none => FcfeResult.err
  | some last =>
    if (1 : ℚ) + cost_of_equity = 0 then FcfeResult.err
    else
      let terminal_value := terminalValueCalc last cost_of_equity terminal_growth
      let pv_fcfes := presentValues future_fcfes cost_of_equity
      let pv_terminal := terminal_value / (1 + cost_of_equity) ^ forecast_years.toNat
      let total_equity_value := pv_fcfes.sum + pv_terminal
      let per_share := if 0 < shares_outstanding then total_equity_value / shares_outstanding else 0
      FcfeResult.ok
        { shareValue := per_share
          baseFCFE := fcfe
          projectedCashFlows := future_fcfes
          presentValues := pv_fcfes
          terminalValue := terminal_value
          pvTerminal := pv_terminal
          totalEquityValue := total_equity_value
          sharesOutstanding := shares_outstanding
          asmCostOfEquity := cost_of_equity
          asmShortTermGrowth := short_term_growth
          asmTerminalGrowth := terminal_growth
          asmForecastYears := forecast_years }

/-! ## FCFF model (`models.py` lines 597-781) -/

/-- The detailed result dictionary built by `calculate_fcff` on success
(`models.py` lines 718-751). -/
structure FcffDetail where
  shareValue : ℚ
  baseFCFF : ℚ
  projectedCashFlows : List ℚ
  presentValues : List ℚ
  terminalValue : ℚ
  pvTerminal : ℚ
  enterpriseValue : ℚ
  totalDebt : ℚ
  cash : ℚ
  equityValue : ℚ
  sharesOutstanding : ℚ
  asmWacc : ℚ
  asmShortTermGrowth : ℚ
  asmTerminalGrowth : ℚ
  asmForecastYears : ℤ
  asmTaxRate : ℚ
deriving DecidableEq

/-- Outcome of `calculate_fcff` (`models.py` line 781 for the except
branch). -/
inductive FcffResult
  | ok (d : FcffDetail)
  | err
deriving DecidableEq

/-- Python `res.get('shareValue', 0)`. -/
def FcffResult.shareValue : FcffResult → ℚ
  | .ok d => d.shareValue
  | .err => 0

/-- Python `'error' in res`. -/
def FcffResult.hasError : FcffResult → Bool
  | .ok _ => false
  | .err => true

/-- Python `res.get('projectedCashFlows', [])`. -/
def FcffResult.projected : FcffResult → List ℚ
  | .ok d => d.projectedCashFlows
  | .err => []

/-- Embeds `ValuationModels.calculate_fcff` in the `stock_data` session
(`models.py` lines 597-781).  Note two deliberate asymmetries with FCFE,
kept from the source: the short-term growth key falls back directly to 0.05
(line 605, no `revenue_growth` fallback), and in this session the after-tax
interest add-back does not take an absolute value (line 682). -/
def calculate_fcff (sd : StockData) (a : Assumptions) : FcffResult :=
  let short_term_growth := a.short_term_growth.getD (5/100)
  let terminal_growth := a.terminal_growth.getD (2/100)
  let wacc := a.wacc.getD (10/100)
  let tax_rate := a.tax_rate.getD (20/100)
  let forecast_years := a.forecast_years.getD 5
  let shares_outstanding := get_shares_outstanding sd
  let net_income := sd.net_income_ttm.getD 0
  let depreciation := sd.depreciation.getD 0
  let interest_expense := sd.interest_expense.getD 0
  let interest_after_tax := interest_expense * (1 - tax_rate)
  let capex := |sd.capex.getD 0|
  let working_capital_change := sd.working_capital_change.getD 0
  let total_debt := sd.total_debt.getD 0
  let cash := sd.cash.getD 0
  let fcff := net_income + depreciation + interest_after_tax - working_capital_change - capex
  let future_fcffs := futureFlows fcff short_term_growth forecast_years
  match future_fcffs.getLast? with
  | none => FcffResult.err
  | some last =>
    if (1 : ℚ) + wacc = 0 then FcffResult.err
    else
      let terminal_value := terminalValueCalc last wacc terminal_growth
      let pv_fcffs := presentValues future_fcffs wacc
      let pv_terminal := terminal_value / (1 + wacc) ^ forecast_years.toNat
      let enterprise_value := pv_fcffs.sum + pv_terminal
      let equity_value := enterprise_value - total_debt + cash
      let per_share := if 0 < shares_outstanding then equity_value / shares_outstanding else 0
      FcffResult.ok
        { shareValue := per_share
          baseFCFF := fcff
          projectedCashFlows := future_fcffs
          presentValues := pv_fcffs
          terminalValue := terminal_value
          pvTerminal := pv_terminal
          enterpriseValue := enterprise_value
          totalDebt := total_debt
          cash := cash
          equityValue := equity_value
          sharesOutstanding := shares_outstanding
          asmWacc := wacc
          asmShortTermGrowth := short_term_growth
          asmTerminalGrowth := terminal_growth
          asmForecastYears := forecast_years
          asmTaxRate := tax_rate }

/-! ## Comparable-multiple models (`models.py` lines 814-934) -/

/-- Sector peer statistics as returned by `get_sector_peers`. -/
structure SectorPeers where
  median_pe : Option ℚ
  median_pb : Option ℚ
deriving DecidableEq

/-- Embeds `ValuationModels.get_sector_peers` in the no-symbol session
(`models.py` lines 164-167): with no `stock_symbol` it returns
`{'median_pe': None, 'median_pb': None, ...}` before any file access. -/
def get_sector_peers : SectorPeers :=
  { median_pe := none, median_pb := none }

/-- Embeds `ValuationModels.calculate_justified_pe` in the `stock_data` session
(`models.py` lines 814-859).  `stock_data.get('eps', 0) or
(net_income / shares if shares > 0 else 0)`: Python `or` keeps a non-zero
(even negative) supplied EPS and otherwise derives EPS from net income.
A `None` or non-positive sector median falls back to the 15x market
average.  Returns the bare per-share number. -/
def calculate_justified_pe (sd : StockData) (_a : Assumptions) : ℚ :=
  let shares_outstanding := get_shares_outstanding sd
  let net_income := sd.net_income_ttm.getD 0
  let epsField := sd.eps.getD 0
  let current_eps :=
    if epsField ≠ 0 then epsField
    else if 0 < shares_outstanding then net_income / shares_outstanding else 0
  if current_eps ≤ 0 then 0
  else
    let median_pe :=
      match get_sector_peers.median_pe with
      | none => (15 : ℚ)
      | some m => if m ≤ 0 then 15 else m
    median_pe * current_eps

/-- Embeds `ValuationModels.calculate_justified_pb` in the `stock_data` session
(`models.py` lines 861-934).  `stock_data.get('bvps', 0) or
stock_data.get('book_value_per_share', 0)`, then a `total_equity / shares`
fallback when both are zero; a `None` or non-positive sector median falls
back to the 1.5x market average.  Returns the bare per-share number. -/
def calculate_justified_pb (sd : StockData) (_a : Assumptions) : ℚ :=
  let shares_outstanding := get_shares_outstanding sd
  let b0 := sd.bvps.getD 0
  let b1 := sd.book_value_per_share.getD 0
  let bvps0 := if b0 ≠ 0 then b0 else b1
  let bvps :=
    if bvps0 = 0 then
      let total_equity := sd.total_equity.getD 0
      if 0 < shares_outstanding then total_equity / shares_outstanding else 0
    else bvps0
  if bvps ≤ 0 then 0
  else
    let median_pb :=
      match get_sector_peers.median_pb with
      | none => (3/2 : ℚ)
      | some m => if m ≤ 0 then 3/2 else m
    median_pb * bvps

/-! ## Aggregation (`models.py` lines 61-100) -/

/-- The default `model_weights` map: equal quarters. -/
def defaultWeights : List (String × ℚ) :=
  [("fcfe", 1/4), ("fcff", 1/4), ("justified_pe", 1/4), ("justified_pb", 1/4)]

/-- Python `k in model_weights` / `model_weights[k]` on the weight map. -/
def lookupWeight (mw : List (String × ℚ)) (k : String) : Option ℚ :=
  (mw.find? (fun p => p.1 == k)).map Prod.snd

/-- The `summary` dictionary (`models.py` lines 94-100). -/
structure Summary where
  average : ℚ
  min : ℚ
  max : ℚ
  models_used : ℕ
  total_models : ℕ
deriving DecidableEq

/-- Python `min(values)` (0 only as the unused empty default). -/
def listMin : List ℚ → ℚ
  | [] => 0
  | [x] => x
  | x :: y :: xs => min x (listMin (y :: xs))

/-- Python `max(values)`. -/
def listMax : List ℚ → ℚ
  | [] => 0
  | [x] => x
  | x :: y :: xs => max x (listMax (y :: xs))

/-- Python `valid_models` (`models.py` lines 78-83): the result entries whose name
is a key of the weight map and whose extracted value is strictly
positive. -/
def validModels (vals mw : List (String × ℚ)) : List (String × ℚ) :=
  vals.filter (fun p => (lookupWeight mw p.1).isSome && decide (0 < p.2))

/-- Source `models.py` lines 85-100 applied to an already-filtered valid list:
weighted average and summary stay at their `0` / empty initializations
unless the valid list is non-empty and its total weight is positive. -/
def aggregateCore (valid mw : List (String × ℚ)) : ℚ × Option Summary :=
  if valid.isEmpty then (0, none)
  else if 0 < (valid.map (fun p => (lookupWeight mw p.1).getD 0)).sum then
    ((valid.map (fun p => p.2 * (lookupWeight mw p.1).getD 0)).sum /
        (valid.map (fun p => (lookupWeight mw p.1).getD 0)).sum,
     some { average := (valid.map Prod.snd).sum / ((valid.map Prod.snd).length : ℚ)
            min := listMin (valid.map Prod.snd)
            max := listMax (valid.map Prod.snd)
            models_used := valid.length
            total_models := 4 })
  else (0, none)

/-- The weighted-average and summary computation of `calculate_all_models`
(`models.py` lines 64-100). -/
def aggregate (vals mw : List (String × ℚ)) : ℚ × Option Summary :=
  aggregateCore (validModels vals mw) mw

/-! ## Sensitivity analysis (`models.py` lines 102-135) -/

/-- Round half to even at integer precision, Python's `round(x)`. -/
def halfEvenRound (q : ℚ) : ℤ :=
  if q - ⌊q⌋ < 1/2 then ⌊q⌋
  else if 1/2 < q - ⌊q⌋ then ⌊q⌋ + 1
  else if ⌊q⌋ % 2 = 0 then ⌊q⌋ else ⌊q⌋ + 1

/-- Python `round(x, 1)`. -/
def pyRound1 (q : ℚ) : ℚ :=
  (halfEvenRound (q * 10) : ℚ) / 10

/-- Python `int(x)`: truncation toward zero. -/
def truncToInt (q : ℚ) : ℤ :=
  if 0 ≤ q then ⌊q⌋ else -⌊-q⌋

/-- Python `[base - 0.01, base - 0.005, base, base + 0.005, base + 0.01]`
(`models.py` lines 108-109), shared by both axes. -/
def perturbRange (b : ℚ) : List ℚ :=
  [b - 1/100, b - 5/1000, b, b + 5/1000, b + 1/100]

/-- The `sensitivity_matrix` dictionary. -/
structure SensMatrix where
  row_headers : List ℚ
  col_headers : List ℚ
  values : List (List ℤ)
deriving DecidableEq

/-- Sensitivity analysis (`models.py` lines 102-131): re-run
`calculate_fcff` on a copy of the assumptions with each (wacc, growth)
pair substituted; headers are percentages rounded to one decimal and each
cell is the per-share value truncated to an integer. -/
def sensitivityAnalysis (sd : StockData) (a : Assumptions) : SensMatrix :=
  let base_wacc := a.wacc.getD (10/100)
  let base_growth := a.terminal_growth.getD (2/100)
  { row_headers := (perturbRange base_wacc).map (fun w => pyRound1 (w * 100))
    col_headers := (perturbRange base_growth).map (fun g => pyRound1 (g * 100))
    values := (perturbRange base_wacc).map (fun w =>
      (perturbRange base_growth).map (fun g =>
        truncToInt ((calculate_fcff sd
          { a with wacc := some w, terminal_growth := some g }).shareValue))) }

/-! ## `calculate_all_models` (`models.py` lines 26-144) -/

/-- The `results` dictionary at the aggregation point (`models.py` lines
31-62): the four model entries plus the `weighted_average = 0` and
`summary = {}` initializations, both of which `get_model_value` maps
to 0 (so they can never enter the valid set). -/
def modelValues (sd : StockData) (a : Assumptions) : List (String × ℚ) :=
  [("fcfe", (calculate_fcfe sd a).shareValue),
   ("fcff", (calculate_fcff sd a).shareValue),
   ("justified_pe", calculate_justified_pe sd a),
   ("justified_pb", calculate_justified_pb sd a),
   ("weighted_average", 0),
   ("summary", 0)]

/-- The result payload of `calculate_all_models` (sector-peer echo
omitted: it is a constant in the modelled session). -/
structure AllResults where
  fcfe : FcfeResult
  fcff : FcffResult
  justified_pe : ℚ
  justified_pb : ℚ
  weighted_average : ℚ
  summary : Option Summary
  sensitivity_analysis : SensMatrix
deriving DecidableEq

/-- Embeds `ValuationModels.calculate_all_models` (`models.py` lines 26-144) in a
session with `stock_data` supplied (so the no-data error gate at line 28
does not fire). -/
def calculate_all_models (sd : StockData) (a : Assumptions) : AllResults :=
  let mw := a.model_weights.getD defaultWeights
  let agg := aggregate (modelValues sd a) mw
  { fcfe := calculate_fcfe sd a
    fcff := calculate_fcff sd a
    justified_pe := calculate_justified_pe sd a
    justified_pb := calculate_justified_pb sd a
    weighted_average := agg.1
    summary := agg.2
    sensitivity_analysis := sensitivityAnalysis sd a }

/-! ## Lemmas about `check_data_frequency` (claim C2) -/

/-- Fixture: a five-row table with no time-bearing column at all. -/
def dfNoTime : DataFrame :=
  ⟨["a"], [[some 1], [some 2], [some 3], [some 4], [some 5]]⟩

/-- C2 counterexample: on the five-row table with no time-bearing column, a
`quarter` request returns the table unchanged — five rows, more than the
four the claim allows. -/
theorem check_data_frequency_quarter_cex :
    ¬((check_data_frequency dfNoTime Freq.quarter).2.rows.length ≤ 4) := by
  decide

/-- C2 (amended): whenever a time-bearing column is detected,
`check_data_frequency` returns at most 4 rows on a `quarter` request and
at most 1 row on a `year` request; with no time-bearing column it returns
the table unchanged with the requested frequency assumed. -/
theorem check_data_frequency_window (df : DataFrame) :
    ((df.columns.filter isTimeCol ≠ [] ∨ df.columns.filter isQuarterCol ≠ []) →
      (check_data_frequency df Freq.quarter).2.rows.length ≤ 4 ∧
      (check_data_frequency df Freq.year).2.rows.length ≤ 1) ∧
    (df.columns.filter isTimeCol = [] → df.columns.filter isQuarterCol = [] →
      ∀ f, check_data_frequency df f = (f, df)) := by
  constructor
  · intro h
    have hg : ((df.columns.filter isTimeCol).isEmpty &&
        (df.columns.filter isQuarterCol).isEmpty) = false := by
      rcases h with h | h <;> simp [List.isEmpty_iff, h]
    constructor <;>
    · unfold check_data_frequency
      simp only [hg, Bool.false_eq_true, if_false]
      repeat' split
      all_goals
        first
          | contradiction
          | exact List.length_take_le _ _
          | exact le_trans (List.length_take_le _ _) (by norm_num)
  · intro h1 h2 f
    unfold check_data_frequency
    simp [h1, h2]

/-- C2 witness: a two-column quarterly table with six rows is windowed to
four rows on a `quarter` request and one row on a `year` request. -/
theorem check_data_frequency_window_wit :
    (check_data_frequency
      ⟨["yearReport", "lengthReport"],
        [[some 2023, some 4], [some 2024, some 1], [some 2024, some 2],
         [some 2024, some 3], [some 2024, some 4], [some 2025, some 1]]⟩
      Freq.quarter).2.rows.length ≤ 4 ∧
    (check_data_frequency
      ⟨["yearReport", "lengthReport"],
        [[some 2023, some 4], [some 2024, some 1], [some 2024, some 2],
         [some 2024, some 3], [some 2024, some 4], [some 2025, some 1]]⟩
      Freq.year).2.rows.length ≤ 1 := by
  exact (check_data_frequency_window _).1 (by left; decide)

/-! ## Lemmas about `find_financial_value` (claim C3) -/

/-- For a capital-flow target the inner column scan accumulates every
matching column's contribution onto the running total and never sets the
`found` flag. -/
theorem scanCols_cap (df : DataFrame) (isQ : Bool) (t : String)
    (hc : targetIsCap t = true) :
    ∀ (l : List (ℕ × String)) (total : ℚ),
      scanCols df isQ t l total = (total + (contribsOn df isQ t l).sum, false) := by
  intro l
  induction l with
  | nil => intro total; simp [scanCols, contribsOn]
  | cons ic rest ih =>
    intro total
    cases hm : colMatches t ic.2 with
    | false => simp [scanCols, contribsOn, hm, ih]
    | true =>
      cases hv : matchedValue df ic.1 isQ with
      | none => simp [scanCols, contribsOn, hm, hv, ih]
      | some cs =>
        simp only [scanCols, contribsOn, hm, hv, hc, if_true, List.filterMap_cons]
        rw [ih]
        simp [contribsOn, add_assoc]

/-- For any other target the inner column scan returns the first matching
column's contribution with the `found` flag, or leaves the total
untouched. -/
theorem scanCols_noncap (df : DataFrame) (isQ : Bool) (t : String)
    (hc : targetIsCap t = false) :
    ∀ (l : List (ℕ × String)) (total : ℚ),
      scanCols df isQ t l total =
        match (contribsOn df isQ t l).head? with
        | some v => (v, true)
        | none => (total, false) := by
  intro l
  induction l with
  | nil => intro total; simp [scanCols, contribsOn]
  | cons ic rest ih =>
    intro total
    cases hm : colMatches t ic.2 with
    | false => simp [scanCols, contribsOn, hm, ih]
    | true =>
      cases hv : matchedValue df ic.1 isQ with
      | none => simp [scanCols, contribsOn, hm, hv, ih]
      | some cs =>
        simp [scanCols, contribsOn, hm, hv, hc]

/-- A non-capital target in particular does not contain "fixed". -/
theorem noncap_no_fixed (t : String) (hc : targetIsCap t = false) :
    charsContains (lowerStr t) "fixed".toList = false := by
  unfold targetIsCap at hc
  exact (Bool.or_eq_false_iff.mp hc).1

/-- Over a synonym list of capital-flow targets the outer loop visits every
synonym and accumulates all their contributions. -/
theorem scanTargets_cap (df : DataFrame) (isQ : Bool) (names : List String)
    (hall : ∀ t ∈ names, targetIsCap t = true) :
    ∀ total, scanTargets df isQ names total = total + capTotal df isQ names := by
  induction names with
  | nil => intro total; simp [scanTargets, capTotal]
  | cons t rest ih =>
    intro total
    have hct : targetIsCap t = true := hall t (List.mem_cons_self t rest)
    have hrest : ∀ s ∈ rest, targetIsCap s = true :=
      fun s hs => hall s (List.mem_cons_of_mem t hs)
    simp only [scanTargets, scanCols_cap df isQ t hct, Bool.false_and, Bool.false_eq_true,
      if_false]
    rw [ih hrest]
    simp [capTotal, colContribs, add_assoc]

/-- Over a synonym list with no capital-flow target the outer loop stops at
the first synonym that matches and returns its first matching column's
contribution. -/
theorem scanTargets_noncap (df : DataFrame) (isQ : Bool) (names : List String)
    (hall : ∀ t ∈ names, targetIsCap t = false) :
    ∀ total, scanTargets df isQ names total =
      match firstHitValue df isQ names with
      | some v => v
      | none => total := by
  induction names with
  | nil => intro total; simp [scanTargets, firstHitValue]
  | cons t rest ih =>
    intro total
    have hct : targetIsCap t = false := hall t (List.mem_cons_self t rest)
    have hrest : ∀ s ∈ rest, targetIsCap s = false :=
      fun s hs => hall s (List.mem_cons_of_mem t hs)
    simp only [scanTargets, scanCols_noncap df isQ t hct, noncap_no_fixed t hct,
      Bool.not_false, Bool.and_true]
    cases hh : (contribsOn df isQ t df.columns.enum).head? with
    | some v =>
      simp only [firstHitValue, colContribs, hh, if_true]
    | none =>
      simp only [firstHitValue, colContribs, hh, Bool.false_eq_true, if_false]
      exact ih hrest total

/-- C3: on a non-empty table, `find_financial_value` sums the contribution
of every matching column of every synonym when every target is a
capital-flow name ("fixed"/"capital"); for a synonym list of any other
targets it returns the first matching column's value of the first synonym
that matches, ignoring all later synonyms, and 0 when nothing matches. -/
theorem find_financial_value_policy (df : DataFrame) (names : List String) (isQ : Bool)
    (hne : df.rows ≠ [] ∧ df.columns ≠ []) :
    ((∀ t ∈ names, targetIsCap t = true) →
      find_financial_value df names isQ = capTotal df isQ names) ∧
    ((∀ t ∈ names, targetIsCap t = false) →
      find_financial_value df names isQ = (firstHitValue df isQ names).getD 0) := by
  have hgate : (df.rows.isEmpty || df.columns.isEmpty) = false := by
    simp [List.isEmpty_iff, hne.1, hne.2]
  constructor
  · intro h
    unfold find_financial_value
    rw [hgate]
    simp only [Bool.false_eq_true, if_false]
    rw [scanTargets_cap df isQ names h 0, zero_add]
  · intro h
    unfold find_financial_value
    rw [hgate]
    simp only [Bool.false_eq_true, if_false]
    rw [scanTargets_noncap df isQ names h 0]
    cases firstHitValue df isQ names <;> simp

/-- Fixture table for the C3 witness. -/
def dfFixture : DataFrame :=
  ⟨["fixed", "capital", "rev"], [[some 1, some 2, some 3]]⟩

/-- C3 witness: on the fixture, the capital-flow list ["fixed", "capital"]
sums both matching columns (1 + 2 = 3), while the ordinary target "rev"
takes its first match's value. -/
theorem find_financial_value_policy_wit :
    find_financial_value dfFixture ["fixed", "capital"] false = 3 ∧
    find_financial_value dfFixture ["rev"] false = 3 := by
  constructor
  · rw [(find_financial_value_policy dfFixture ["fixed", "capital"] false
      (by constructor <;> decide)).1 (by decide)]
    simp +decide [capTotal, colContribs, contribsOn, matchedValue, cellAt, dfFixture,
      List.enum, List.enumFrom]
    norm_num
  · rw [(find_financial_value_policy dfFixture ["rev"] false
      (by constructor <;> decide)).2 (by decide)]
    simp +decide [firstHitValue, colContribs, contribsOn, matchedValue, cellAt, dfFixture,
      List.enum, List.enumFrom]

/-! ## Lemmas about the projection and terminal-value arithmetic (claims C1, C5, C10) -/

/-- The projection list has one entry per forecast year. -/
theorem futureFlows_length (base g : ℚ) (n : ℤ) :
    (futureFlows base g n).length = n.toNat := by
  simp [futureFlows]

/-- A positive horizon yields a non-empty projection list. -/
theorem futureFlows_ne_nil (base g : ℚ) (n : ℤ) (hn : 0 < n) :
    futureFlows base g n ≠ [] := by
  intro h
  have hl := futureFlows_length base g n
  rw [h] at hl
  simp only [List.length_nil] at hl
  have := Int.toNat_eq_zero.mp hl.symm
  omega

/-- A non-positive horizon yields the empty projection list. -/
theorem futureFlows_eq_nil (base g : ℚ) (n : ℤ) (hn : n ≤ 0) :
    futureFlows base g n = [] := by
  unfold futureFlows
  rw [Int.toNat_eq_zero.mpr hn]
  simp

/-- With a positive horizon and a non-degenerate discount rate,
`calculate_fcfe` succeeds and its detailed record echoes the projection
list, the terminal value computed by the shared safeguard, and the resolved
assumptions. -/
theorem calculate_fcfe_ok (sd : StockData) (a : Assumptions)
    (hn : 0 < a.forecast_years.getD 5)
    (hr : (1 : ℚ) + a.cost_of_equity.getD (12/100) ≠ 0) :
    ∃ d last, calculate_fcfe sd a = FcfeResult.ok d ∧
      d.projectedCashFlows.getLast? = some last ∧
      d.terminalValue = terminalValueCalc last (a.cost_of_equity.getD (12/100))
        (a.terminal_growth.getD (2/100)) ∧
      d.asmShortTermGrowth = a.short_term_growth.getD (a.revenue_growth.getD (5/100)) ∧
      d.asmForecastYears = a.forecast_years.getD 5 := by
  have hne := futureFlows_ne_nil
    ((sd.net_income_ttm.getD 0) + (sd.depreciation.getD 0) + (sd.net_borrowing.getD 0) -
      (sd.working_capital_change.getD 0) - |sd.capex.getD 0|)
    (a.short_term_growth.getD (a.revenue_growth.getD (5/100)))
    (a.forecast_years.getD 5) hn
  unfold calculate_fcfe
  cases hl : (futureFlows
      ((sd.net_income_ttm.getD 0) + (sd.depreciation.getD 0) + (sd.net_borrowing.getD 0) -
        (sd.working_capital_change.getD 0) - |sd.capex.getD 0|)
      (a.short_term_growth.getD (a.revenue_growth.getD (5/100)))
      (a.forecast_years.getD 5)).getLast? with
  | none => exact absurd (List.getLast?_eq_none_iff.mp hl) hne
  | some last =>
    simp only [hl]
    rw [if_neg hr]
    exact ⟨_, last, rfl, hl, rfl, rfl, rfl⟩

/-- The FCFF analogue of `calculate_fcfe_ok`; note the short-term growth
echo falls back directly to 0.05. -/
theorem calculate_fcff_ok (sd : StockData) (a : Assumptions)
    (hn : 0 < a.forecast_years.getD 5)
    (hr : (1 : ℚ) + a.wacc.getD (10/100) ≠ 0) :
    ∃ d last, calculate_fcff sd a = FcffResult.ok d ∧
      d.projectedCashFlows.getLast? = some last ∧
      d.terminalValue = terminalValueCalc last (a.wacc.getD (10/100))
        (a.terminal_growth.getD (2/100)) ∧
      d.asmShortTermGrowth = a.short_term_growth.getD (5/100) ∧
      d.asmForecastYears = a.forecast_years.getD 5 := by
  have hne := futureFlows_ne_nil
    ((sd.net_income_ttm.getD 0) + (sd.depreciation.getD 0) +
      (sd.interest_expense.getD 0) * (1 - a.tax_rate.getD (20/100)) -
      (sd.working_capital_change.getD 0) - |sd.capex.getD 0|)
    (a.short_term_growth.getD (5/100))
    (a.forecast_years.getD 5) hn
  unfold calculate_fcff
  cases hl : (futureFlows
      ((sd.net_income_ttm.getD 0) + (sd.depreciation.getD 0) +
        (sd.interest_expense.getD 0) * (1 - a.tax_rate.getD (20/100)) -
        (sd.working_capital_change.getD 0) - |sd.capex.getD 0|)
      (a.short_term_growth.getD (5/100))
      (a.forecast_years.getD 5)).getLast? with
  | none => exact absurd (List.getLast?_eq_none_iff.mp hl) hne
  | some last =>
    simp only [hl]
    rw [if_neg hr]
    exact ⟨_, last, rfl, hl, rfl, rfl, rfl⟩

/-- C1: when the discount rate exceeds the terminal growth the terminal
value is `lastFlow * (1 + g) / (r - g)`; when `r ≤ g` the effective rate is
`max(r, g + 0.02)`, which always equals `g + 0.02`, so the denominator is
the positive constant 0.02 and no division by a non-positive number occurs.
Both `calculate_fcfe` (with the cost of equity) and `calculate_fcff` (with
the WACC) compute their terminal value through exactly this safeguard. -/
theorem terminal_value_safeguard :
    (∀ last r g : ℚ, g < r →
      terminalValueCalc last r g = last * (1 + g) / (r - g)) ∧
    (∀ last r g : ℚ, r ≤ g →
      max r (g + 2/100) = g + 2/100 ∧
      (0 : ℚ) < max r (g + 2/100) - g ∧
      terminalValueCalc last r g = last * (1 + g) / (max r (g + 2/100) - g)) ∧
    (∀ (sd : StockData) (a : Assumptions), 0 < a.forecast_years.getD 5 →
      (1 : ℚ) + a.cost_of_equity.getD (12/100) ≠ 0 →
      ∃ d last, calculate_fcfe sd a = FcfeResult.ok d ∧
        d.projectedCashFlows.getLast? = some last ∧
        d.terminalValue = terminalValueCalc last (a.cost_of_equity.getD (12/100))
          (a.terminal_growth.getD (2/100))) ∧
    (∀ (sd : StockData) (a : Assumptions), 0 < a.forecast_years.getD 5 →
      (1 : ℚ) + a.wacc.getD (10/100) ≠ 0 →
      ∃ d last, calculate_fcff sd a = FcffResult.ok d ∧
        d.projectedCashFlows.getLast? = some last ∧
        d.terminalValue = terminalValueCalc last (a.wacc.getD (10/100))
          (a.terminal_growth.getD (2/100))) := by
  refine ⟨?_, ?_, ?_, ?_⟩
  · intro last r g h
    unfold terminalValueCalc
    rw [if_neg (not_le.mpr h)]
  · intro last r g h
    have hmax : max r (g + 2/100) = g + 2/100 := max_eq_right (by linarith)
    refine ⟨hmax, by rw [hmax]; linarith, ?_⟩
    unfold terminalValueCalc
    rw [if_pos h]
  · intro sd a hn hr
    obtain ⟨d, last, h1, h2, h3, _, _⟩ := calculate_fcfe_ok sd a hn hr
    exact ⟨d, last, h1, h2, h3⟩
  · intro sd a hn hr
    obtain ⟨d, last, h1, h2, h3, _, _⟩ := calculate_fcff_ok sd a hn hr
    exact ⟨d, last, h1, h2, h3⟩

/-- C1 witness: with `r = 0.12 > g = 0.02` the terminal value of a last flow
of 100 is `100 * 1.02 / 0.10 = 1020`; with `r = 0.02 ≤ g = 0.03` the
safeguarded denominator gives `100 * 1.03 / 0.02 = 5150`; and on the default
assumption set both models produce a successful detailed record. -/
theorem terminal_value_safeguard_wit :
    terminalValueCalc 100 (12/100) (2/100) = 1020 ∧
    terminalValueCalc 100 (2/100) (3/100) = 5150 ∧
    (∃ d last, calculate_fcfe {} {} = FcfeResult.ok d ∧
      d.projectedCashFlows.getLast? = some last) ∧
    (∃ d last, calculate_fcff {} {} = FcffResult.ok d ∧
      d.projectedCashFlows.getLast? = some last) := by
  refine ⟨?_, ?_, ?_, ?_⟩
  · rw [terminal_value_safeguard.1 100 (12/100) (2/100) (by norm_num)]
    norm_num
  · have h := terminal_value_safeguard.2.1 100 (2/100) (3/100) (by norm_num)
    rw [h.2.2, h.1]
    norm_num
  · obtain ⟨d, last, h1, h2, _⟩ :=
      terminal_value_safeguard.2.2.1 {} {} (by decide) (by norm_num)
    exact ⟨d, last, h1, h2⟩
  · obtain ⟨d, last, h1, h2, _⟩ :=
      terminal_value_safeguard.2.2.2 {} {} (by decide) (by norm_num)
    exact ⟨d, last, h1, h2⟩

/-! ## Claim C5: short-term growth fallback -/

/-- Fixture: net income 100, nothing else. -/
def sdNI : StockData := { net_income_ttm := some 100 }

/-- Fixture: a revenue-growth key of 8% with no short-term growth key, and a
one-year horizon to keep the projection list short. -/
def aRG : Assumptions := { revenue_growth := some (8/100), forecast_years := some 1 }

/-- C5 counterexample: with `revenue_growth = 0.08` supplied and no
short-term growth key, FCFE projects its base flow of 100 to 108 (it uses
the revenue-growth fallback), but FCFF projects it to 105: it uses the
default 0.05 and ignores the revenue-growth key, contradicting the claim
that all four models share the revenue-growth fallback. -/
theorem fcff_ignores_revenue_growth_cex :
    (calculate_fcfe sdNI aRG).projected.head? = some 108 ∧
    (calculate_fcff sdNI aRG).projected.head? = some 105 ∧
    (105 : ℚ) ≠ 100 * (1 + 8/100) := by
  refine ⟨?_, ?_, by norm_num⟩
  · simp +decide [calculate_fcfe, sdNI, aRG, futureFlows, FcfeResult.projected,
      List.range_succ]
    norm_num
  · simp +decide [calculate_fcff, sdNI, aRG, futureFlows, FcffResult.projected,
      List.range_succ]
    norm_num

/-- C5 (amended): when the short-term growth key is absent, `calculate_fcfe`
falls back to the revenue-growth key and only then to the default 0.05,
while `calculate_fcff` falls back directly to 0.05 and never consults the
revenue-growth key (the two comparable-multiple models read no growth key
at all). -/
theorem short_term_growth_fallback (sd : StockData) (a : Assumptions)
    (hn : 0 < a.forecast_years.getD 5)
    (he : (1 : ℚ) + a.cost_of_equity.getD (12/100) ≠ 0)
    (hw : (1 : ℚ) + a.wacc.getD (10/100) ≠ 0) :
    (∃ d, calculate_fcfe sd a = FcfeResult.ok d ∧
      d.asmShortTermGrowth = a.short_term_growth.getD (a.revenue_growth.getD (5/100))) ∧
    (∃ d, calculate_fcff sd a = FcffResult.ok d ∧
      d.asmShortTermGrowth = a.short_term_growth.getD (5/100)) := by
  obtain ⟨d1, last1, h1, _, _, h1g, _⟩ := calculate_fcfe_ok sd a hn he
  obtain ⟨d2, last2, h2, _, _, h2g, _⟩ := calculate_fcff_ok sd a hn hw
  exact ⟨⟨d1, h1, h1g⟩, ⟨d2, h2, h2g⟩⟩

/-- C5 witness: on the fixture with `revenue_growth = 0.08`, the FCFE echo
records a short-term growth of 8% while the FCFF echo records 5%. -/
theorem short_term_growth_fallback_wit :
    (∃ d, calculate_fcfe sdNI aRG = FcfeResult.ok d ∧ d.asmShortTermGrowth = 8/100) ∧
    (∃ d, calculate_fcff sdNI aRG = FcffResult.ok d ∧ d.asmShortTermGrowth = 5/100) := by
  obtain ⟨⟨d1, h1, h1'⟩, ⟨d2, h2, h2'⟩⟩ :=
    short_term_growth_fallback sdNI aRG (by decide) (by norm_num [aRG]) (by norm_num [aRG])
  refine ⟨⟨d1, h1, ?_⟩, ⟨d2, h2, ?_⟩⟩
  · rw [h1']; simp [aRG]
  · rw [h2']; simp [aRG]

/-! ## Claim C7: shares outstanding -/

/-- Fixture: a stock-data dictionary that stores zero shares outstanding. -/
def sdZeroShares : StockData := { shares_outstanding := some 0 }

/-- C7 counterexample: with `shares_outstanding = 0` stored in the supplied
data, `get_shares_outstanding` returns 0, which is not strictly positive —
the fallback applies only when the key is absent. -/
theorem get_shares_outstanding_cex :
    get_shares_outstanding sdZeroShares = 0 ∧
    ¬(0 < get_shares_outstanding sdZeroShares) := by
  constructor <;> decide

/-- C7 (amended): `get_shares_outstanding` returns the fixed default of one
billion — which is strictly positive — exactly when the supplied data has no
shares-outstanding figure; when a figure is present it is returned as-is,
with no positivity guarantee. -/
theorem get_shares_outstanding_default (sd : StockData) :
    (sd.shares_outstanding = none →
      get_shares_outstanding sd = 1000000000 ∧ 0 < get_shares_outstanding sd) ∧
    (∀ v, sd.shares_outstanding = some v → get_shares_outstanding sd = v) := by
  constructor
  · intro h
    unfold get_shares_outstanding
    rw [h]
    exact ⟨rfl, by norm_num⟩
  · intro v h
    unfold get_shares_outstanding
    rw [h]
    rfl

/-- C7 witness: with no figure supplied the default of one billion is
returned and is positive; with a stored 0 the 0 is returned. -/
theorem get_shares_outstanding_default_wit :
    get_shares_outstanding {} = 1000000000 ∧
    (0 : ℚ) < get_shares_outstanding {} ∧
    get_shares_outstanding sdZeroShares = 0 := by
  have h1 := (get_shares_outstanding_default {}).1 rfl
  have h2 := (get_shares_outstanding_default sdZeroShares).2 0 rfl
  exact ⟨h1.1, h1.2, h2⟩

/-! ## Claim C8: non-positive shares outstanding -/

/-- With non-positive shares the FCFE per-share value is 0 in every
outcome, including the error dictionary. -/
theorem fcfe_shareValue_zero (sd : StockData) (a : Assumptions)
    (hs : get_shares_outstanding sd ≤ 0) :
    (calculate_fcfe sd a).shareValue = 0 := by
  unfold calculate_fcfe
  cases hl : (futureFlows
      ((sd.net_income_ttm.getD 0) + (sd.depreciation.getD 0) + (sd.net_borrowing.getD 0) -
        (sd.working_capital_change.getD 0) - |sd.capex.getD 0|)
      (a.short_term_growth.getD (a.revenue_growth.getD (5/100)))
      (a.forecast_years.getD 5)).getLast? with
  | none => simp only [hl, FcfeResult.shareValue]
  | some last =>
    simp only [hl]
    by_cases hr : (1 : ℚ) + a.cost_of_equity.getD (12/100) = 0
    · rw [if_pos hr]; rfl
    · rw [if_neg hr]
      simp [FcfeResult.shareValue, if_neg (not_lt.mpr hs)]

/-- With non-positive shares the FCFF per-share value is 0 in every
outcome. -/
theorem fcff_shareValue_zero (sd : StockData) (a : Assumptions)
    (hs : get_shares_outstanding sd ≤ 0) :
    (calculate_fcff sd a).shareValue = 0 := by
  unfold calculate_fcff
  cases hl : (futureFlows
      ((sd.net_income_ttm.getD 0) + (sd.depreciation.getD 0) +
        (sd.interest_expense.getD 0) * (1 - a.tax_rate.getD (20/100)) -
        (sd.working_capital_change.getD 0) - |sd.capex.getD 0|)
      (a.short_term_growth.getD (5/100))
      (a.forecast_years.getD 5)).getLast? with
  | none => simp only [hl, FcffResult.shareValue]
  | some last =>
    simp only [hl]
    by_cases hr : (1 : ℚ) + a.wacc.getD (10/100) = 0
    · rw [if_pos hr]; rfl
    · rw [if_neg hr]
      simp [FcffResult.shareValue, if_neg (not_lt.mpr hs)]

/-- Fixture: zero shares together with a directly supplied positive EPS. -/
def sdSharesZeroEps : StockData := { shares_outstanding := some 0, eps := some 1000 }

/-- C8 counterexample: with shares outstanding resolving to 0 but a
directly supplied `eps = 1000`, the comparable-earnings model returns
`15 * 1000 = 15000`, not 0 — the supplied EPS bypasses the shares-based
guard, so not every model output is 0 at zero shares. -/
theorem zero_shares_pe_cex :
    get_shares_outstanding sdSharesZeroEps = 0 ∧
    calculate_justified_pe sdSharesZeroEps {} = 15000 ∧
    (15000 : ℚ) ≠ 0 := by
  refine ⟨by decide, ?_, by norm_num⟩
  simp +decide [calculate_justified_pe, get_sector_peers, get_shares_outstanding,
    sdSharesZeroEps]
  norm_num

/-- C8 (amended): when shares outstanding resolves to a non-positive
number, `calculate_fcfe` and `calculate_fcff` always report a per-share
value of 0, and the two comparable models report 0 provided no directly
supplied per-share figure (eps / bvps chain) is positive; no model
propagates an exception in any case (each returns a value or its error
record). -/
theorem zero_shares_all_models (sd : StockData) (a : Assumptions)
    (hs : get_shares_outstanding sd ≤ 0) :
    (calculate_fcfe sd a).shareValue = 0 ∧
    (calculate_fcff sd a).shareValue = 0 ∧
    (sd.eps.getD 0 ≤ 0 → calculate_justified_pe sd a = 0) ∧
    ((if sd.bvps.getD 0 ≠ 0 then sd.bvps.getD 0 else sd.book_value_per_share.getD 0) ≤ 0 →
      calculate_justified_pb sd a = 0) := by
  refine ⟨fcfe_shareValue_zero sd a hs, fcff_shareValue_zero sd a hs, ?_, ?_⟩
  · intro he
    unfold calculate_justified_pe
    by_cases h0 : sd.eps.getD 0 = 0
    · simp [h0, not_lt.mpr hs]
    · simp [h0, he]
  · intro hb
    unfold calculate_justified_pb
    by_cases h0 : sd.bvps.getD 0 = 0
    · by_cases h1 : sd.book_value_per_share.getD 0 = 0
      · simp [h0, h1, not_lt.mpr hs]
      · have hb1 : sd.book_value_per_share.getD 0 ≤ 0 := by simpa [h0] using hb
        simp [h0, h1, hb1]
    · have hb0 : sd.bvps.getD 0 ≤ 0 := by simpa [h0] using hb
      simp [h0, hb0]

/-- Fixture: only zero shares, no directly supplied per-share figures. -/
def sdOnlyZeroShares : StockData := { shares_outstanding := some 0 }

/-- C8 witness: with shares = 0 and nothing directly supplied, all four
models report 0. -/
theorem zero_shares_all_models_wit :
    (calculate_fcfe sdOnlyZeroShares {}).shareValue = 0 ∧
    (calculate_fcff sdOnlyZeroShares {}).shareValue = 0 ∧
    calculate_justified_pe sdOnlyZeroShares {} = 0 ∧
    calculate_justified_pb sdOnlyZeroShares {} = 0 := by
  have h := zero_shares_all_models sdOnlyZeroShares {} (by decide)
  exact ⟨h.1, h.2.1, h.2.2.1 (by decide), h.2.2.2 (by decide)⟩

/-! ## Claim C10: non-positive forecast horizon -/

/-- C10: with a forecast horizon of 0 or below, the projection list is
empty for any base flow and growth rate, and both discounted-flow models
catch the resulting indexing failure at the model boundary, returning the
error record whose per-share value reads 0 and whose error field is
present. -/
theorem nonpositive_horizon_safe (sd : StockData) (a : Assumptions)
    (hn : a.forecast_years.getD 5 ≤ 0) :
    (∀ base g : ℚ, futureFlows base g (a.forecast_years.getD 5) = []) ∧
    calculate_fcfe sd a = FcfeResult.err ∧
    (calculate_fcfe sd a).shareValue = 0 ∧
    (calculate_fcfe sd a).hasError = true ∧
    calculate_fcff sd a = FcffResult.err ∧
    (calculate_fcff sd a).shareValue = 0 ∧
    (calculate_fcff sd a).hasError = true := by
  have hf : ∀ base g : ℚ, futureFlows base g (a.forecast_years.getD 5) = [] :=
    fun base g => futureFlows_eq_nil base g _ hn
  have he : calculate_fcfe sd a = FcfeResult.err := by
    unfold calculate_fcfe
    simp only [hf, List.getLast?_nil]
  have hw : calculate_fcff sd a = FcffResult.err := by
    unfold calculate_fcff
    simp only [hf, List.getLast?_nil]
  refine ⟨hf, he, ?_, ?_, hw, ?_, ?_⟩ <;> simp [he, hw, FcfeResult.shareValue,
    FcfeResult.hasError, FcffResult.shareValue, FcffResult.hasError]

/-- C10 witness: at an explicit zero horizon the projection is empty and
both models return the zero-valued error record. -/
theorem nonpositive_horizon_safe_wit :
    futureFlows 100 (5/100) ((0 : ℤ)) = [] ∧
    calculate_fcfe {} { forecast_years := some 0 } = FcfeResult.err ∧
    (calculate_fcfe {} { forecast_years := some 0 }).shareValue = 0 ∧
    calculate_fcff {} { forecast_years := some 0 } = FcffResult.err ∧
    (calculate_fcff {} { forecast_years := some 0 }).shareValue = 0 := by
  have h := nonpositive_horizon_safe {} { forecast_years := some 0 } (by decide)
  exact ⟨h.1 100 (5/100), h.2.1, h.2.2.1, h.2.2.2.2.1, h.2.2.2.2.2.1⟩

/-! ## Claim C4: weighted average lies within the valid range -/

/-- The value `listMin` bounds every member from below. -/
theorem listMin_le {l : List ℚ} {x : ℚ} (h : x ∈ l) : listMin l ≤ x := by
  induction l with
  | nil => cases h
  | cons a t ih =>
    cases t with
    | nil =>
      have hx : x = a := by simpa using h
      subst hx
      exact le_refl x
    | cons b t2 =>
      have hm : listMin (a :: b :: t2) = min a (listMin (b :: t2)) := rfl
      rw [hm]
      rcases List.mem_cons.mp h with hx | hx
      · subst hx; exact min_le_left _ _
      · exact le_trans (min_le_right _ _) (ih hx)

/-- The value `listMax` bounds every member from above. -/
theorem le_listMax {l : List ℚ} {x : ℚ} (h : x ∈ l) : x ≤ listMax l := by
  induction l with
  | nil => cases h
  | cons a t ih =>
    cases t with
    | nil =>
      have hx : x = a := by simpa using h
      subst hx
      exact le_refl x
    | cons b t2 =>
      have hm : listMax (a :: b :: t2) = max a (listMax (b :: t2)) := rfl
      rw [hm]
      rcases List.mem_cons.mp h with hx | hx
      · subst hx; exact le_max_left _ _
      · exact le_trans (ih hx) (le_max_right _ _)

/-- A value-weighted sum with non-negative weights is at most the maximal
value times the total weight. -/
theorem weighted_sum_le (l : List (String × ℚ)) (w : String → ℚ) (M : ℚ)
    (hw : ∀ p ∈ l, 0 ≤ w p.1) (hv : ∀ p ∈ l, p.2 ≤ M) :
    (l.map (fun p => p.2 * w p.1)).sum ≤ M * (l.map (fun p => w p.1)).sum := by
  induction l with
  | nil => simp
  | cons p t ih =>
    simp only [List.map_cons, List.sum_cons, mul_add]
    have h1 : p.2 * w p.1 ≤ M * w p.1 :=
      mul_le_mul_of_nonneg_right (hv p (List.mem_cons_self p t))
        (hw p (List.mem_cons_self p t))
    have h2 := ih (fun q hq => hw q (List.mem_cons_of_mem p hq))
      (fun q hq => hv q (List.mem_cons_of_mem p hq))
    linarith

/-- A value-weighted sum with non-negative weights is at least the minimal
value times the total weight. -/
theorem le_weighted_sum (l : List (String × ℚ)) (w : String → ℚ) (m : ℚ)
    (hw : ∀ p ∈ l, 0 ≤ w p.1) (hv : ∀ p ∈ l, m ≤ p.2) :
    m * (l.map (fun p => w p.1)).sum ≤ (l.map (fun p => p.2 * w p.1)).sum := by
  induction l with
  | nil => simp
  | cons p t ih =>
    simp only [List.map_cons, List.sum_cons, mul_add]
    have h1 : m * w p.1 ≤ p.2 * w p.1 :=
      mul_le_mul_of_nonneg_right (hv p (List.mem_cons_self p t))
        (hw p (List.mem_cons_self p t))
    have h2 := ih (fun q hq => hw q (List.mem_cons_of_mem p hq))
      (fun q hq => hv q (List.mem_cons_of_mem p hq))
    linarith

/-- Every weight looked up from a map of non-negative weights is
non-negative (absent keys read as 0). -/
theorem lookupWeight_nonneg (mw : List (String × ℚ)) (hw : ∀ p ∈ mw, 0 ≤ p.2)
    (k : String) : 0 ≤ (lookupWeight mw k).getD 0 := by
  cases hfind : mw.find? (fun q => q.1 == k) with
  | none => simp [lookupWeight, hfind]
  | some q =>
    have hq := hw q (List.mem_of_find?_eq_some hfind)
    simp [lookupWeight, hfind, hq]

set_option maxHeartbeats 1000000 in
/-- C4: whenever the weight map (caller-supplied or default) is
non-negative and the weights of the strictly-positive-valued weighted
models have positive total, the weighted average reported by
`calculate_all_models` lies between the minimum and the maximum of those
models' values. -/
theorem weighted_average_bounds (sd : StockData) (a : Assumptions)
    (hw : ∀ p ∈ a.model_weights.getD defaultWeights, 0 ≤ p.2)
    (hne : validModels (modelValues sd a) (a.model_weights.getD defaultWeights) ≠ [])
    (hpos : 0 < ((validModels (modelValues sd a) (a.model_weights.getD defaultWeights)).map
      (fun p => (lookupWeight (a.model_weights.getD defaultWeights) p.1).getD 0)).sum) :
    listMin ((validModels (modelValues sd a)
        (a.model_weights.getD defaultWeights)).map Prod.snd) ≤
      (calculate_all_models sd a).weighted_average ∧
    (calculate_all_models sd a).weighted_average ≤
      listMax ((validModels (modelValues sd a)
        (a.model_weights.getD defaultWeights)).map Prod.snd) := by
  have hQ : (calculate_all_models sd a).weighted_average =
      ((validModels (modelValues sd a) (a.model_weights.getD defaultWeights)).map
        (fun p => p.2 * (lookupWeight (a.model_weights.getD defaultWeights) p.1).getD 0)).sum /
      ((validModels (modelValues sd a) (a.model_weights.getD defaultWeights)).map
        (fun p => (lookupWeight (a.model_weights.getD defaultWeights) p.1).getD 0)).sum := by
    show (aggregate (modelValues sd a) (a.model_weights.getD defaultWeights)).1 = _
    unfold aggregate aggregateCore
    split
    all_goals
      first
        | rfl
        | (rename_i hemp; exact absurd (List.isEmpty_iff.mp hemp) hne)
  rw [hQ]
  constructor
  · rw [le_div_iff₀ hpos]
    exact le_weighted_sum _
      (fun k => (lookupWeight (a.model_weights.getD defaultWeights) k).getD 0) _
      (fun p _ => lookupWeight_nonneg _ hw p.1)
      (fun p hp => listMin_le (List.mem_map_of_mem Prod.snd hp))
  · rw [div_le_iff₀ hpos]
    exact weighted_sum_le _
      (fun k => (lookupWeight (a.model_weights.getD defaultWeights) k).getD 0) _
      (fun p _ => lookupWeight_nonneg _ hw p.1)
      (fun p hp => le_listMax (List.mem_map_of_mem Prod.snd hp))

/-- Fixture: one share outstanding and a book value of 2 per share, so only
the comparable-book model produces a positive value. -/
def sdBV : StockData := { shares_outstanding := some 1, bvps := some 2 }

/-- Fixture: a zero forecast horizon (so both discounted-flow models return
their error record) and a configurable weight map. -/
def aZeroHorizon : Assumptions := { forecast_years := some 0 }

/-- On the fixture the four models resolve to 0, 0, 0 and 3 (the book
model: market-average multiple 1.5 times bvps 2), independently of the
weight map supplied. -/
theorem modelValues_sdBV (mw : Option (List (String × ℚ))) :
    modelValues sdBV { forecast_years := some 0, model_weights := mw } =
      [("fcfe", 0), ("fcff", 0), ("justified_pe", 0), ("justified_pb", 3),
       ("weighted_average", 0), ("summary", 0)] := by
  have hfe : calculate_fcfe sdBV { forecast_years := some 0, model_weights := mw } =
      FcfeResult.err := by
    unfold calculate_fcfe
    simp [futureFlows]
  have hff : calculate_fcff sdBV { forecast_years := some 0, model_weights := mw } =
      FcffResult.err := by
    unfold calculate_fcff
    simp [futureFlows]
  have hpe : calculate_justified_pe sdBV { forecast_years := some 0, model_weights := mw } =
      0 := by
    simp +decide [calculate_justified_pe, get_shares_outstanding, sdBV, get_sector_peers]
  have hpb : calculate_justified_pb sdBV { forecast_years := some 0, model_weights := mw } =
      3 := by
    simp +decide [calculate_justified_pb, get_shares_outstanding, sdBV, get_sector_peers]
  simp [modelValues, hfe, hff, hpe, hpb, FcfeResult.shareValue, FcffResult.shareValue]

/-- On the fixture with the default weight map, only the book model is
valid. -/
theorem validModels_sdBV_default :
    validModels (modelValues sdBV aZeroHorizon) defaultWeights =
      [("justified_pb", (3 : ℚ))] := by
  have h := modelValues_sdBV none
  rw [show aZeroHorizon = { forecast_years := some 0, model_weights := none } from rfl, h]
  decide

/-- C4 witness: on the fixture (only the book model valid, default equal
weights) the weighted average indeed lies between the minimal and maximal
valid value. -/
theorem weighted_average_bounds_wit :
    listMin ((validModels (modelValues sdBV aZeroHorizon) defaultWeights).map Prod.snd) ≤
      (calculate_all_models sdBV aZeroHorizon).weighted_average ∧
    (calculate_all_models sdBV aZeroHorizon).weighted_average ≤
      listMax ((validModels (modelValues sdBV aZeroHorizon) defaultWeights).map Prod.snd) := by
  have h := weighted_average_bounds sdBV aZeroHorizon
    (by
      intro p hp
      have hp' : p ∈ defaultWeights := hp
      fin_cases hp' <;> norm_num)
    (by
      show validModels (modelValues sdBV aZeroHorizon) defaultWeights ≠ []
      rw [validModels_sdBV_default]
      simp)
    (by
      show 0 < ((validModels (modelValues sdBV aZeroHorizon) defaultWeights).map
        (fun p => (lookupWeight defaultWeights p.1).getD 0)).sum
      rw [validModels_sdBV_default]
      simp [lookupWeight, defaultWeights])
  exact h

/-! ## Claim C9: weight-map gating of the aggregation -/

/-- Dropping the entries whose name is not a key of the weight map does not
change the valid-model set: such entries are filtered out anyway. -/
theorem validModels_filter_keys (vals mw : List (String × ℚ)) :
    validModels (vals.filter (fun p => (lookupWeight mw p.1).isSome)) mw =
      validModels vals mw := by
  unfold validModels
  rw [List.filter_filter]
  apply List.filter_congr
  intro p _
  cases hq : (lookupWeight mw p.1).isSome <;> simp [hq]

/-- C9: with a caller-supplied weight map, (i) the weighted average and
summary of `calculate_all_models` are exactly those computed after
discarding every model entry whose name is not a key of the map — so a
model missing from the map is excluded even when its value is strictly
positive — and (ii) whenever the weights of the strictly-positive-valued
weighted models sum to 0, the weighted average is reported as 0 and the
summary as empty. -/
theorem weights_gate (sd : StockData) (a : Assumptions) (wv : List (String × ℚ)) :
    ((calculate_all_models sd { a with model_weights := some wv }).weighted_average,
      (calculate_all_models sd { a with model_weights := some wv }).summary) =
      aggregate ((modelValues sd { a with model_weights := some wv }).filter
        (fun p => (lookupWeight wv p.1).isSome)) wv ∧
    (((validModels (modelValues sd { a with model_weights := some wv }) wv).map
        (fun p => (lookupWeight wv p.1).getD 0)).sum = 0 →
      (calculate_all_models sd { a with model_weights := some wv }).weighted_average = 0 ∧
      (calculate_all_models sd { a with model_weights := some wv }).summary = none) := by
  constructor
  · have hA : aggregate ((modelValues sd { a with model_weights := some wv }).filter
        (fun p => (lookupWeight wv p.1).isSome)) wv =
        aggregate (modelValues sd { a with model_weights := some wv }) wv := by
      unfold aggregate
      rw [validModels_filter_keys]
    rw [hA]
    rfl
  · intro h0
    have hz : aggregate (modelValues sd { a with model_weights := some wv }) wv =
        (0, none) := by
      unfold aggregate aggregateCore
      split
      all_goals
        first
          | rfl
          | (rw [h0]; simp)
    constructor
    · show (aggregate (modelValues sd { a with model_weights := some wv }) wv).1 = 0
      rw [hz]
    · show (aggregate (modelValues sd { a with model_weights := some wv }) wv).2 = none
      rw [hz]

/-- Fixture: zero horizon plus a weight map giving the book model weight
zero. -/
def aZeroWeightPB : Assumptions :=
  { forecast_years := some 0, model_weights := some [("justified_pb", 0)] }

/-- On the fixture with the weight map `{justified_pb: 0}`, the book model
is still the only valid one. -/
theorem validModels_sdBV_zeroWeight :
    validModels (modelValues sdBV aZeroWeightPB) [("justified_pb", (0 : ℚ))] =
      [("justified_pb", (3 : ℚ))] := by
  unfold aZeroWeightPB
  rw [modelValues_sdBV (some [("justified_pb", 0)])]
  decide

/-- C9 witness: with the single valid model's weight set to 0 the weighted
average is reported as 0 and the summary as empty, even though the model's
value 3 is strictly positive. -/
theorem weights_gate_wit :
    (calculate_all_models sdBV aZeroWeightPB).weighted_average = 0 ∧
    (calculate_all_models sdBV aZeroWeightPB).summary = none := by
  have h := (weights_gate sdBV { forecast_years := some 0 } [("justified_pb", 0)]).2
    (by
      show ((validModels (modelValues sdBV aZeroWeightPB) [("justified_pb", (0 : ℚ))]).map
        (fun p => (lookupWeight [("justified_pb", (0 : ℚ))] p.1).getD 0)).sum = 0
      rw [validModels_sdBV_zeroWeight]
      simp [lookupWeight])
  exact h

/-! ## Claim C6: the sensitivity grid -/

/-- Half-even rounding lands within half a unit of its argument. -/
theorem halfEvenRound_bounds (q : ℚ) :
    q - 1/2 ≤ (halfEvenRound q : ℚ) ∧ (halfEvenRound q : ℚ) ≤ q + 1/2 := by
  have h1 : (⌊q⌋ : ℚ) ≤ q := Int.floor_le q
  have h2 : q < ⌊q⌋ + 1 := Int.lt_floor_add_one q
  unfold halfEvenRound
  split_ifs with hf1 hf2 hev
  all_goals constructor
  all_goals push_cast
  all_goals linarith

/-- Python `round(x, 1)` lands within 0.05 of its argument. -/
theorem pyRound1_bounds (q : ℚ) :
    q - 1/20 ≤ pyRound1 q ∧ pyRound1 q ≤ q + 1/20 := by
  have h := halfEvenRound_bounds (q * 10)
  unfold pyRound1
  constructor
  · rw [le_div_iff₀ (by norm_num : (0 : ℚ) < 10)]
    linarith [h.1]
  · rw [div_le_iff₀ (by norm_num : (0 : ℚ) < 10)]
    linarith [h.2]

/-- Rounding to one decimal is strictly monotone across a half-unit gap. -/
theorem pyRound1_lt (x y : ℚ) (h : y = x + 1/2) : pyRound1 x < pyRound1 y := by
  have hx := pyRound1_bounds x
  have hy := pyRound1_bounds y
  linarith [hx.2, hy.1]

/-- C6: the sensitivity grid of `calculate_all_models` has exactly 5 row
headers and 5 column headers, the rows being the base WACC and the columns
the base terminal growth each perturbed by −1.0, −0.5, 0, +0.5 and +1.0
percentage points, expressed as percentages rounded to one decimal; both
header lists are strictly increasing and centred on the base assumption,
and every cell is the FCFF per-share value recomputed with that
(rate, growth) pair substituted into an otherwise unchanged assumption
copy, truncated to an integer. -/
theorem sensitivity_grid_shape (sd : StockData) (a : Assumptions) :
    (calculate_all_models sd a).sensitivity_analysis = sensitivityAnalysis sd a ∧
    (sensitivityAnalysis sd a).row_headers.length = 5 ∧
    (sensitivityAnalysis sd a).col_headers.length = 5 ∧
    (sensitivityAnalysis sd a).row_headers =
      (perturbRange (a.wacc.getD (10/100))).map (fun w => pyRound1 (w * 100)) ∧
    (sensitivityAnalysis sd a).col_headers =
      (perturbRange (a.terminal_growth.getD (2/100))).map (fun g => pyRound1 (g * 100)) ∧
    List.Chain' (· < ·) (sensitivityAnalysis sd a).row_headers ∧
    List.Chain' (· < ·) (sensitivityAnalysis sd a).col_headers ∧
    (sensitivityAnalysis sd a).row_headers.get? 2 =
      some (pyRound1 ((a.wacc.getD (10/100)) * 100)) ∧
    (sensitivityAnalysis sd a).col_headers.get? 2 =
      some (pyRound1 ((a.terminal_growth.getD (2/100)) * 100)) ∧
    (sensitivityAnalysis sd a).values =
      (perturbRange (a.wacc.getD (10/100))).map (fun w =>
        (perturbRange (a.terminal_growth.getD (2/100))).map (fun g =>
          truncToInt ((calculate_fcff sd
            { a with wacc := some w, terminal_growth := some g }).shareValue))) := by
  refine ⟨rfl, rfl, rfl, rfl, rfl, ?_, ?_, rfl, rfl, rfl⟩
  · show List.Chain' (· < ·)
      [pyRound1 ((a.wacc.getD (10/100) - 1/100) * 100),
       pyRound1 ((a.wacc.getD (10/100) - 5/1000) * 100),
       pyRound1 ((a.wacc.getD (10/100)) * 100),
       pyRound1 ((a.wacc.getD (10/100) + 5/1000) * 100),
       pyRound1 ((a.wacc.getD (10/100) + 1/100) * 100)]
    simp only [List.chain'_cons, List.chain'_singleton, and_true]
    refine ⟨?_, ?_, ?_, ?_⟩ <;> (apply pyRound1_lt; ring)
  · show List.Chain' (· < ·)
      [pyRound1 ((a.terminal_growth.getD (2/100) - 1/100) * 100),
       pyRound1 ((a.terminal_growth.getD (2/100) - 5/1000) * 100),
       pyRound1 ((a.terminal_growth.getD (2/100)) * 100),
       pyRound1 ((a.terminal_growth.getD (2/100) + 5/1000) * 100),
       pyRound1 ((a.terminal_growth.getD (2/100) + 1/100) * 100)]
    simp only [List.chain'_cons, List.chain'_singleton, and_true]
    refine ⟨?_, ?_, ?_, ?_⟩ <;> (apply pyRound1_lt; ring)
